import Mathlib

/-!
Shallow embedding of the sharded Meraxes HDF5 reader
(src/dragons/meraxes/io.py): the multi-core galaxy-table assembler
`read_gals` (io.py:61-268) and the three tree-linkage index rebasers
`read_firstprogenitor_indices` (io.py:614-681),
`read_nextprogenitor_indices` (io.py:684-739) and
`read_descendant_indices` (io.py:742-808).

Modelling conventions.

* A galaxy record (one row of a numpy structured array) is a list of
  named integer fields; the only field the reader ever inspects is
  `CentralGal`, all others are carried opaquely.
* The HDF5 file is modelled by `MFile`: the file-level `NCores`
  attribute, and the list of snapshot groups (`Snap000`, `Snap001`, ...),
  each with its `NGalaxies` attribute and its per-core sub-groups
  `Core{i}/Galaxies`, `Core{i}/FirstProgenitorIndices`,
  `Core{i}/NextProgenitorIndices`, `Core{i}/DescendantIndices`.  A
  snapshot id that is not an index into the list is a missing group
  (`KeyError` in h5py), and snapshot ids are taken non-negative (the
  negative-id resolution of io.py:131-137 is out of scope of the claims).
* The per-core loops `for i_core in range(n_cores)` walk the stored core
  list; that the list has exactly `NCores` entries is a persisted-layout
  assumption which theorems carry as a hypothesis where it matters.
* `read_direct` into a preallocated buffer with per-core destination
  slices `[counter : counter + core_n)` is modelled as list
  concatenation; this is exact whenever the per-core dataset sizes sum
  to the allocated size (the snapshot's `NGalaxies` attribute), which is
  again a layout assumption carried by hypotheses.  Partially
  uninitialised `np.empty` buffers produced by out-of-range selections
  are not modelled; selection theorems therefore assume in-range
  selections.
* Unit/Hubble scaling, pandas/astropy conversion and `sim_props`
  (io.py:221-261) only post-process or accompany the returned buffer and
  are outside every claim, so the embedding returns the assembled buffer
  itself.  Shards of one snapshot share a single record schema (spec
  section 3), so the field restriction `galaxies[G.dtype.names]` of
  io.py:208 is the identity and is not modelled separately.
-/

/-- One galaxy record: the ordered named integer fields of one row of a
numpy structured array. -/
abbrev GalRec := List (String × Int)

/-- One core's data inside one snapshot group: the dtype field names and
rows of its `Core{i}/Galaxies` dataset, and its three linkage datasets. -/
structure CoreData where
  gschema : List String
  galaxies : List GalRec
  fpIndices : List Int
  npIndices : List Int
  descIndices : List Int
  deriving Repr, DecidableEq

/-- A core group with no datasets (used only as a `getD` default). -/
def emptyCore : CoreData := ⟨[], [], [], [], []⟩

/-- One snapshot group: its `NGalaxies` attribute and its per-core
sub-groups in core-index order. -/
structure Snapshot where
  nGalaxies : Nat
  cores : List CoreData
  deriving Repr, DecidableEq

/-- A snapshot group with no galaxies (used only as a `getD` default). -/
def emptySnap : Snapshot := ⟨0, []⟩

/-- A Meraxes master file: the file-level `NCores` attribute and the
snapshot groups, indexed by snapshot id. -/
structure MFile where
  nCores : Nat
  snaps : List Snapshot
  deriving Repr, DecidableEq

/-- Errors surfaced by the embedded readers.  `emptySnapshot` embeds the
`IndexError` raised at io.py:150-151; the other constructors embed the
`KeyError`/`AttributeError` exits of the h5py group lookups and of the
dtype resolution. -/
inductive ReadErr where
  | missingSnapshot
  | emptySnapshot
  | missingCore
  | unresolvableSchema
  deriving Repr, DecidableEq

/-- Total record count of a list of core shards: the sum of the per-core
`Galaxies` dataset sizes. -/
def totalGals (cores : List CoreData) : Nat :=
  (cores.map (fun c => c.galaxies.length)).sum

/-- Per-core cumulative offset: the summed record counts of cores
`0 .. k-1`, i.e. the position at which core `k`'s shard starts inside
the assembled table (`offset[0] = 0`). -/
def coreOffset (cores : List CoreData) (k : Nat) : Nat :=
  totalGals (cores.take k)

/-- Elementwise `+= c` on one named field of a record: the effect of
`G[dest_sel]["CentralGal"] += counter` (io.py:114) on each row of the
destination slice. -/
def addToField (fld : String) (c : Int) (r : GalRec) : GalRec :=
  r.map (fun p => if p.1 = fld then (p.1, p.2 + c) else p)

/-- The `__apply_offsets` helper (io.py:111-116) acting on one record.
`G[dest_sel]["CentralGal"] += counter` adds the counter to the
`CentralGal` field when the resolved output dtype carries that field;
when the dtype lacks the field the access raises `ValueError`, which the
bare `except ValueError: pass` swallows, leaving the slice untouched. -/
def rebaseCG (schema : List String) (c : Int) (r : GalRec) : GalRec :=
  if schema.contains "CentralGal" then addToField "CentralGal" c r else r

/-- Insertion of one value into an ascending list (helper for the
embedded `indices.sort()`). -/
def insertSorted (i : Nat) : List Nat → List Nat
  | [] => [i]
  | j :: rest => if i ≤ j then i :: j :: rest else j :: insertSorted i rest

/-- The in-place ascending `indices.sort()` of io.py:156, embedded as an
insertion sort: on integer keys every comparison sort computes the same
ascending rearrangement. -/
def sortIndices : List Nat → List Nat
  | [] => []
  | i :: rest => insertSorted i (sortIndices rest)

/-- The `read_ind` computation of io.py:200-202: the requested global
indices falling inside the current core's logical range, translated to
core-local indices. -/
def readIndOf (idx : List Nat) (totalRead coreN : Nat) : List Nat :=
  (idx.filter (fun i => decide (totalRead ≤ i) && decide (i < totalRead + coreN))).map
    (fun i => i - totalRead)

/-- The per-core body of the `read_gals` assembly loop (io.py:187-213).
Given the resolved output schema, the requested (already sorted) index
selection, the current core's group, `total_read` and the output written
so far (`counter` is its length), it returns the extended output and the
updated `total_read`:

* a core with zero records is skipped (io.py:191);
* with no selection, the core's full run is copied to
  `[counter : counter + core_n)` and `__apply_offsets` adds `counter` to
  the slice's `CentralGal` values (io.py:192-197);
* with a selection, the requested global indices falling in
  `[total_read, total_read + core_n)` are translated to core-local
  indices (`read_ind`, io.py:200-202), the matching rows are fetched via
  an ascending boolean mask (io.py:206-208) and placed at the next
  sequential destination offsets, `__apply_offsets` adds `total_read` to
  the placed slice (io.py:210), and `total_read` advances by the full
  core size (io.py:213). -/
def coreStep (schema : List String) (indices : Option (List Nat)) (c : CoreData)
    (totalRead : Nat) (acc : List GalRec) : List GalRec × Nat :=
  if c.galaxies.length = 0 then (acc, totalRead)
  else
    match indices with
    | none => (acc ++ c.galaxies.map (rebaseCG schema (acc.length : Int)), totalRead)
    | some idx =>
      (if 0 < (readIndOf idx totalRead c.galaxies.length).length then
        acc ++ (((List.range c.galaxies.length).filter
            (fun j => (readIndOf idx totalRead c.galaxies.length).contains j)).map
          (fun j => c.galaxies.getD j [])).map (rebaseCG schema (totalRead : Int))
      else acc, totalRead + c.galaxies.length)

/-- The `read_gals` core loop (io.py:184-216): fold `coreStep` over the
cores in ascending core-index order, breaking early once the output
reaches `ngals` records (io.py:215-216). -/
def galsLoop (schema : List String) (ngals : Nat) (indices : Option (List Nat)) :
    List CoreData → Nat → List GalRec → List GalRec
  | [], _, acc => acc
  | c :: rest, totalRead, acc =>
    if ngals ≤ (coreStep schema indices c totalRead acc).1.length then
      (coreStep schema indices c totalRead acc).1
    else
      galsLoop schema ngals indices rest (coreStep schema indices c totalRead acc).2
        (coreStep schema indices c totalRead acc).1

/-- The `read_gals` entry point (io.py:61-268) together with its file
handle bookkeeping.  The second component records whether the
`fin.close()` of io.py:263 was reached: `read_gals` opens `fin` at
io.py:128 without a scope guard, so any raise between open and close
propagates with the handle still open.

Control flow embedded, in source order: snapshot group lookup
(io.py:142, `KeyError` when absent), `NCores` attribute (io.py:145),
`NGalaxies` attribute and the empty-snapshot `IndexError`
(io.py:148-151), sorting of a supplied index selection and the reset of
`ngals` to the selection size (io.py:154-157), dtype resolution from the
`Core0/Galaxies` dataset (io.py:160-170; with `props=None` the first
core's dtype is taken unconditionally, so `n_cores = 0` leaves the dtype
unresolved and io.py:175 raises, and a missing `Core0` group raises
`KeyError`), allocation and the core loop (io.py:180-216), and the
close-then-return (io.py:263-268). -/
def read_gals_run (f : MFile) (snapshot : Nat) (indices : Option (List Nat)) :
    Except ReadErr (List GalRec) × Bool :=
  match f.snaps[snapshot]? with
  | none => (Except.error ReadErr.missingSnapshot, false)
  | some snap =>
    if snap.nGalaxies = 0 then (Except.error ReadErr.emptySnapshot, false)
    else
      let sorted := indices.map sortIndices
      let ngals := match sorted with
        | none => snap.nGalaxies
        | some idx => idx.length
      if f.nCores = 0 then (Except.error ReadErr.unresolvableSchema, false)
      else
        match snap.cores[0]? with
        | none => (Except.error ReadErr.missingCore, false)
        | some c0 =>
          (Except.ok (if 0 < ngals then galsLoop c0.gschema ngals sorted snap.cores 0 [] else []),
            true)

/-- The buffer returned by `read_gals` (io.py:61-268), ignoring the file
handle bookkeeping of `read_gals_run`. -/
def read_gals (f : MFile) (snapshot : Nat) (indices : Option (List Nat)) :
    Except ReadErr (List GalRec) :=
  (read_gals_run f snapshot indices).1

/-- Reference form of the no-selection assembly used by the theorems:
each core's records in core order, with `rebaseCG` applied at that
core's cumulative offset; `ofs` is the offset of the first listed
core. -/
def assembleFrom (schema : List String) : Nat → List CoreData → List GalRec
  | _, [] => []
  | ofs, c :: rest =>
    c.galaxies.map (rebaseCG schema (ofs : Int)) ++ assembleFrom schema (ofs + c.galaxies.length) rest

/-- One masked offset addition: `arr[arr > -1] += ofs` acting on a single
value (the sentinel mask `value > -1` of io.py:676/733/803). -/
def rebase1 (v ofs : Int) : Int :=
  if v > -1 then v + ofs else v

/-- `arr[arr > -1] += ofs` on a whole per-core linkage slice. -/
def rebaseVals (vals : List Int) (ofs : Int) : List Int :=
  vals.map (fun v => rebase1 v ofs)

/-- The shared shape of the three linkage loops (io.py:668-676, 726-734,
795-803): concatenate the per-core linkage datasets in ascending core
order, rebasing core `k`'s slice by `offsets[k]`.  The concatenation
equals the `np.zeros(n_gals)` buffer filled by `read_direct` whenever
the per-core dataset sizes sum to `NGalaxies` (layout assumption). -/
def rebaseConcat (chunks : List (List Int)) (offsets : List Int) : List Int :=
  (List.zipWith rebaseVals chunks offsets).flatten

/-- Start position of chunk `k` inside the concatenation of `chunks`. -/
def chunkStart (chunks : List (List Int)) (k : Nat) : Nat :=
  ((chunks.take k).map List.length).sum

/-- The `prev_core_counter` table of io.py:656-662 (and its descendant
twin io.py:783-789): a zero, followed by the sizes of the target
snapshot's `Core{0..n-2}/Galaxies` datasets, cumulatively summed — entry
`k` is the target snapshot's cumulative record count of cores
`0 .. k-1`. -/
def galOffsetTable (targetCores : List CoreData) (n : Nat) : List Int :=
  (List.range n).map (fun k => (coreOffset targetCores k : Int))

/-- Cumulative size of the current snapshot's `NextProgenitorIndices`
datasets for cores `0 .. k-1`: the value of `counter` when core `k`'s
slice is rebased at io.py:733. -/
def npOffset (cores : List CoreData) (k : Nat) : Nat :=
  ((cores.take k).map (fun c => c.npIndices.length)).sum

/-- The running `counter` offsets of the next-progenitor loop
(io.py:726-734): core `k`'s slice is rebased by the summed sizes of the
already-read slices of cores `0 .. k-1`. -/
def npOffsetTable (cores : List CoreData) : List Int :=
  (List.range cores.length).map (fun k => (npOffset cores k : Int))

/-- `read_firstprogenitor_indices` (io.py:614-681): look up the current
snapshot group (io.py:645) and the previous snapshot group (io.py:648,
`KeyError` when absent — snapshot 0 has no `Snap-01` group), then
concatenate the per-core `FirstProgenitorIndices` datasets, rebasing
core `k`'s non-sentinel values by the previous snapshot's cumulative
record count of cores `0 .. k-1` (io.py:656-676). -/
def read_firstprogenitor_indices (f : MFile) (snapshot : Nat) : Except ReadErr (List Int) :=
  match f.snaps[snapshot]? with
  | none => Except.error ReadErr.missingSnapshot
  | some snap =>
    match (if snapshot = 0 then none else f.snaps[snapshot - 1]?) with
    | none => Except.error ReadErr.missingSnapshot
    | some prev =>
      Except.ok (rebaseConcat (snap.cores.map (fun c => c.fpIndices))
        (galOffsetTable prev.cores snap.cores.length))

/-- `read_nextprogenitor_indices` (io.py:684-739): concatenate the
per-core `NextProgenitorIndices` datasets of the current snapshot,
rebasing core `k`'s non-sentinel values by the running `counter`
(io.py:726-734) — the summed sizes of the slices already read. -/
def read_nextprogenitor_indices (f : MFile) (snapshot : Nat) : Except ReadErr (List Int) :=
  match f.snaps[snapshot]? with
  | none => Except.error ReadErr.missingSnapshot
  | some snap =>
    Except.ok (rebaseConcat (snap.cores.map (fun c => c.npIndices)) (npOffsetTable snap.cores))

/-- `read_descendant_indices` (io.py:742-808): look up the current
snapshot group (io.py:772) and the next snapshot group (io.py:775,
`KeyError` when absent), then concatenate the per-core
`DescendantIndices` datasets, rebasing core `k`'s non-sentinel values by
the next snapshot's cumulative record count of cores `0 .. k-1`
(io.py:783-803). -/
def read_descendant_indices (f : MFile) (snapshot : Nat) : Except ReadErr (List Int) :=
  match f.snaps[snapshot]? with
  | none => Except.error ReadErr.missingSnapshot
  | some snap =>
    match f.snaps[snapshot + 1]? with
    | none => Except.error ReadErr.missingSnapshot
    | some next =>
      Except.ok (rebaseConcat (snap.cores.map (fun c => c.descIndices))
        (galOffsetTable next.cores snap.cores.length))

/-! Concrete file instances used by the claim witnesses and
counterexamples below. -/

/-- A one-field galaxy record without a CentralGal field. -/
def mrec (v : Int) : GalRec := [("StellarMass", v)]

/-- A record whose only field is the self-referential CentralGal index. -/
def crec (v : Int) : GalRec := [("CentralGal", v)]

/-- Two cores, one galaxy each, with a CentralGal field in the schema. -/
def snapC1 : Snapshot :=
  ⟨2, [⟨["CentralGal"], [crec 0], [], [], []⟩, ⟨["CentralGal"], [crec 0], [], [], []⟩]⟩

def cxC1 : MFile := ⟨2, [snapC1]⟩

def snapC2prev : Snapshot := ⟨1, [⟨["StellarMass"], [mrec 1], [], [], []⟩]⟩

/-- One core whose three linkage datasets hold only the sentinel. -/
def snapC2cur : Snapshot := ⟨1, [⟨["StellarMass"], [mrec 2], [-1], [-1], [-1]⟩]⟩

def snapC2next : Snapshot := ⟨1, [⟨["StellarMass"], [mrec 3], [], [], []⟩]⟩

def cxC2 : MFile := ⟨1, [snapC2prev, snapC2cur, snapC2next]⟩

def snapC3prev : Snapshot :=
  ⟨3, [⟨["StellarMass"], [mrec 1, mrec 2], [], [], []⟩, ⟨["StellarMass"], [mrec 3], [], [], []⟩]⟩

/-- Two cores with non-sentinel first-progenitor and descendant links. -/
def snapC3cur : Snapshot :=
  ⟨2, [⟨["StellarMass"], [mrec 4], [0], [-1], [1]⟩, ⟨["StellarMass"], [mrec 5], [1], [-1], [0]⟩]⟩

def snapC3next : Snapshot :=
  ⟨4, [⟨["StellarMass"], [mrec 6, mrec 7, mrec 8], [], [], []⟩,
    ⟨["StellarMass"], [mrec 9], [], [], []⟩]⟩

def cxC3 : MFile := ⟨2, [snapC3prev, snapC3cur, snapC3next]⟩

/-- Two cores with next-progenitor links, one sentinel, one core-local 0. -/
def snapC4 : Snapshot :=
  ⟨2, [⟨["StellarMass"], [mrec 1], [], [-1], []⟩, ⟨["StellarMass"], [mrec 2], [], [0], []⟩]⟩

def cxC4 : MFile := ⟨2, [snapC4]⟩

/-- The spec's Scenario A core layout, scaled down to sizes [2, 0, 1]. -/
def snapC5 : Snapshot :=
  ⟨3, [⟨["StellarMass"], [mrec 10, mrec 11], [], [], []⟩, ⟨["StellarMass"], [], [], [], []⟩,
    ⟨["StellarMass"], [mrec 12], [], [], []⟩]⟩

def cxC5 : MFile := ⟨3, [snapC5]⟩

def snapC6prev : Snapshot := ⟨1, [⟨["StellarMass"], [mrec 1], [], [], []⟩]⟩

/-- One core whose linkage values rebase far outside the adjacent
snapshots' totals (a corrupted-linkage file). -/
def snapC6cur : Snapshot := ⟨1, [⟨["StellarMass"], [mrec 2], [5], [9], [11]⟩]⟩

def snapC6next : Snapshot := ⟨1, [⟨["StellarMass"], [mrec 3], [], [], []⟩]⟩

def cxC6 : MFile := ⟨1, [snapC6prev, snapC6cur, snapC6next]⟩

/-- A snapshot whose NGalaxies attribute is zero. -/
def snapC7 : Snapshot := ⟨0, [⟨["StellarMass"], [], [], [], []⟩]⟩

def cxC7 : MFile := ⟨1, [snapC7]⟩

/-- Two cores whose resolved record schema has no CentralGal field. -/
def snapC8 : Snapshot :=
  ⟨2, [⟨["StellarMass"], [mrec 7], [], [], []⟩, ⟨["StellarMass"], [mrec 8], [], [], []⟩]⟩

def cxC8 : MFile := ⟨2, [snapC8]⟩

def cxC9 : MFile := ⟨1, [⟨0, []⟩]⟩

/-- Two cores with three galaxies for exercising index selections. -/
def snapC10 : Snapshot :=
  ⟨3, [⟨["StellarMass"], [mrec 20, mrec 21], [], [], []⟩,
    ⟨["StellarMass"], [mrec 22], [], [], []⟩]⟩

def cxC10 : MFile := ⟨3, [snapC10]⟩

/-! Helper lemmas about the embedded sort. -/

theorem insertSorted_length (i : Nat) (l : List Nat) :
    (insertSorted i l).length = l.length + 1 := by
  induction l with
  | nil => rfl
  | cons j rest ih =>
    simp only [insertSorted]
    split
    · simp
    · simp [ih]

theorem sortIndices_length (l : List Nat) : (sortIndices l).length = l.length := by
  induction l with
  | nil => rfl
  | cons i rest ih => simp [sortIndices, insertSorted_length, ih]

theorem mem_insertSorted (b i : Nat) (l : List Nat) :
    b ∈ insertSorted i l ↔ b = i ∨ b ∈ l := by
  induction l with
  | nil => simp [insertSorted]
  | cons j rest ih =>
    simp only [insertSorted]
    split
    · simp [List.mem_cons]
    · simp only [List.mem_cons, ih]
      tauto

theorem insertSorted_sorted (i : Nat) (l : List Nat) (h : l.Sorted (· ≤ ·)) :
    (insertSorted i l).Sorted (· ≤ ·) := by
  induction l with
  | nil => simp [insertSorted]
  | cons j rest ih =>
    rw [List.sorted_cons] at h
    simp only [insertSorted]
    split
    · rename_i hij
      rw [List.sorted_cons]
      refine ⟨?_, by rw [List.sorted_cons]; exact h⟩
      intro b hb
      rcases List.mem_cons.mp hb with rfl | hb
      · exact hij
      · exact le_trans hij (h.1 b hb)
    · rename_i hij
      rw [List.sorted_cons]
      refine ⟨?_, ih h.2⟩
      intro b hb
      rcases (mem_insertSorted b i rest).mp hb with rfl | hb
      · omega
      · exact h.1 b hb

theorem sortIndices_sorted (l : List Nat) : (sortIndices l).Sorted (· ≤ ·) := by
  induction l with
  | nil => simp [sortIndices]
  | cons i rest ih => exact insertSorted_sorted i _ ih

theorem sortIndices_eq_of_sorted (l : List Nat) (h : l.Sorted (· ≤ ·)) :
    sortIndices l = l := by
  induction l with
  | nil => rfl
  | cons i rest ih =>
    rw [List.sorted_cons] at h
    simp only [sortIndices, ih h.2]
    cases rest with
    | nil => rfl
    | cons j rest2 =>
      simp only [insertSorted]
      rw [if_pos (h.1 j (List.mem_cons_self j rest2))]

theorem sortIndices_idem (l : List Nat) :
    sortIndices (sortIndices l) = sortIndices l :=
  sortIndices_eq_of_sorted _ (sortIndices_sorted l)

/-! Helper lemmas about sorted index lists. -/

theorem filter_ge_split (tr n : Nat) (S : List Nat) (hS : S.Sorted (· < ·)) :
    S.filter (fun i => decide (tr ≤ i)) =
      S.filter (fun i => decide (tr ≤ i) && decide (i < tr + n)) ++
        S.filter (fun i => decide (tr + n ≤ i)) := by
  induction S with
  | nil => rfl
  | cons a S ih =>
    rw [List.sorted_cons] at hS
    by_cases h1 : tr ≤ a
    · by_cases h2 : a < tr + n
      · rw [List.filter_cons_of_pos (by simpa using h1),
          List.filter_cons_of_pos (by simp [h1, h2]),
          List.filter_cons_of_neg (by simp; omega)]
        simpa using ih hS.2
      · rw [List.filter_cons_of_pos (by simpa using h1),
          List.filter_cons_of_neg (by simp; omega),
          List.filter_cons_of_pos (by simp; omega)]
        have hW : S.filter (fun i => decide (tr ≤ i) && decide (i < tr + n)) = [] := by
          rw [List.filter_eq_nil_iff]
          intro b hb
          have := hS.1 b hb
          simp
          omega
        rw [ih hS.2, hW]
        simp
    · rw [List.filter_cons_of_neg (by simpa using h1),
        List.filter_cons_of_neg (by simp; omega),
        List.filter_cons_of_neg (by simp; omega)]
      exact ih hS.2

theorem sorted_recover (n : Nat) (l : List Nat) (hl : l.Sorted (· < ·))
    (hn : ∀ j ∈ l, j < n) :
    (List.range n).filter (fun j => l.contains j) = l := by
  have hr : ((List.range n).filter (fun j => l.contains j)).Sorted (· < ·) :=
    (List.sorted_lt_range n).filter _
  have hmem : ∀ a, a ∈ (List.range n).filter (fun j => l.contains j) ↔ a ∈ l := by
    intro a
    constructor
    · intro h
      have := List.of_mem_filter h
      simpa using this
    · intro h
      refine List.mem_filter.mpr ⟨List.mem_range.mpr (hn a h), by simpa using h⟩
  have hperm : List.Perm ((List.range n).filter (fun j => l.contains j)) l :=
    (List.perm_ext_iff_of_nodup hr.nodup hl.nodup).mpr hmem
  exact List.eq_of_perm_of_sorted hperm (hr.le_of_lt) (hl.le_of_lt)

theorem readInd_sorted (tr n : Nat) (S : List Nat) (hS : S.Sorted (· < ·)) :
    ((S.filter (fun i => decide (tr ≤ i) && decide (i < tr + n))).map
      (fun i => i - tr)).Sorted (· < ·) := by
  have hf : (S.filter (fun i => decide (tr ≤ i) && decide (i < tr + n))).Sorted (· < ·) :=
    hS.filter _
  rw [List.Sorted, List.pairwise_map]
  refine hf.imp_of_mem ?_
  intro a b ha hb hab
  have ha2 : tr ≤ a := by
    have := List.of_mem_filter ha
    simp at this
    omega
  omega

/-! Helper lemmas about the reference assembly. -/

theorem assembleFrom_length (schema : List String) (ofs : Nat) (cores : List CoreData) :
    (assembleFrom schema ofs cores).length = totalGals cores := by
  induction cores generalizing ofs with
  | nil => rfl
  | cons c rest ih => simp [assembleFrom, totalGals, ih]

theorem assembleFrom_of_totalGals_zero (schema : List String) (ofs : Nat)
    (cores : List CoreData) (h : totalGals cores = 0) :
    assembleFrom schema ofs cores = [] := by
  have := assembleFrom_length schema ofs cores
  rw [h] at this
  exact List.length_eq_zero.mp this

theorem assembleFrom_getElem (schema : List String) (cores : List CoreData)
    (ofs k j : Nat) (hk : k < cores.length)
    (hj : j < (cores.getD k emptyCore).galaxies.length) :
    (assembleFrom schema ofs cores)[coreOffset cores k + j]? =
      some (rebaseCG schema ((ofs + coreOffset cores k : Nat) : Int)
        ((cores.getD k emptyCore).galaxies.getD j [])) := by
  induction cores generalizing ofs k with
  | nil => simp at hk
  | cons c rest ih =>
    cases k with
    | zero =>
      simp only [List.getD_cons_zero] at hj ⊢
      have h0 : coreOffset (c :: rest) 0 = 0 := by simp [coreOffset, totalGals]
      rw [h0]
      simp only [assembleFrom, Nat.zero_add, Nat.add_zero]
      rw [List.getElem?_append, if_pos (by simpa using hj)]
      rw [List.getElem?_map]
      rw [List.getElem?_eq_getElem hj]
      simp [List.getD_eq_getElem?_getD, List.getElem?_eq_getElem hj]
    | succ k =>
      simp only [List.getD_cons_succ] at hj ⊢
      have hk2 : k < rest.length := by simpa using hk
      have hco : coreOffset (c :: rest) (k + 1) = c.galaxies.length + coreOffset rest k := by
        simp [coreOffset, totalGals, List.take_succ_cons]
      rw [hco]
      simp only [assembleFrom]
      rw [List.getElem?_append_right (by simp; omega)]
      have harith : c.galaxies.length + coreOffset rest k + j -
          (c.galaxies.map (rebaseCG schema (ofs : Int))).length = coreOffset rest k + j := by
        simp
        omega
      rw [harith]
      rw [ih (ofs + c.galaxies.length) k hk2 hj]
      congr 2
      omega

theorem assembleFrom_no_centralgal (schema : List String) (ofs : Nat)
    (cores : List CoreData) (h : schema.contains "CentralGal" = false) :
    assembleFrom schema ofs cores = (cores.map (fun c => c.galaxies)).flatten := by
  induction cores generalizing ofs with
  | nil => rfl
  | cons c rest ih =>
    simp only [assembleFrom, List.map_cons, List.flatten_cons, ih]
    congr 1
    have hrb : ∀ r, rebaseCG schema (ofs : Int) r = r := by
      intro r
      simp only [rebaseCG, h, Bool.false_eq_true, if_false]
    rw [List.map_congr_left (fun r _ => hrb r)]
    exact List.map_id' c.galaxies

/-! Helper lemmas about the assembly loop, no-selection path. -/

theorem coreStep_none (schema : List String) (c : CoreData) (tr : Nat) (acc : List GalRec) :
    coreStep schema none c tr acc =
      (acc ++ c.galaxies.map (rebaseCG schema (acc.length : Int)), tr) := by
  unfold coreStep
  split
  · rename_i h
    rw [List.length_eq_zero.mp h]
    simp
  · rfl

theorem galsLoop_none_eq (schema : List String) (ngals : Nat) (cores : List CoreData)
    (tr : Nat) (acc : List GalRec)
    (hle : acc.length + totalGals cores ≤ ngals) :
    galsLoop schema ngals none cores tr acc = acc ++ assembleFrom schema acc.length cores := by
  induction cores generalizing tr acc with
  | nil => simp [galsLoop, assembleFrom]
  | cons c rest ih =>
    have htot : totalGals (c :: rest) = c.galaxies.length + totalGals rest := by
      simp [totalGals]
    rw [galsLoop, coreStep_none]
    simp only [List.length_append, List.length_map]
    split
    · rename_i hbreak
      have hz : totalGals rest = 0 := by omega
      rw [assembleFrom, assembleFrom_of_totalGals_zero _ _ _ hz]
      simp
    · rename_i hbreak
      rw [ih _ _ (by simp; omega)]
      rw [assembleFrom]
      simp [List.append_assoc]

/-! Helper lemmas about the assembly loop, selection path. -/

theorem getD_map_rebase (g : GalRec → GalRec) (l : List GalRec) (j : Nat)
    (hj : j < l.length) : (l.map g).getD j [] = g (l.getD j []) := by
  rw [List.getD_eq_getElem?_getD, List.getD_eq_getElem?_getD, List.getElem?_map,
    List.getElem?_eq_getElem hj]
  simp

theorem getD_append_left_rec (l1 l2 : List GalRec) (j : Nat) (h : j < l1.length) :
    (l1 ++ l2).getD j [] = l1.getD j [] := by
  rw [List.getD_eq_getElem?_getD, List.getD_eq_getElem?_getD, List.getElem?_append, if_pos h]

theorem getD_append_right_rec (l1 l2 : List GalRec) (j : Nat) (h : l1.length ≤ j) :
    (l1 ++ l2).getD j [] = l2.getD (j - l1.length) [] := by
  rw [List.getD_eq_getElem?_getD, List.getD_eq_getElem?_getD, List.getElem?_append_right h]

theorem readIndOf_mem_lt (S : List Nat) (tr n j : Nat) (hj : j ∈ readIndOf S tr n) :
    j < n := by
  unfold readIndOf at hj
  rcases List.mem_map.mp hj with ⟨i, hi, rfl⟩
  have := List.of_mem_filter hi
  simp at this
  omega

theorem readIndOf_sorted (S : List Nat) (tr n : Nat) (hS : S.Sorted (· < ·)) :
    (readIndOf S tr n).Sorted (· < ·) := by
  unfold readIndOf
  exact readInd_sorted tr n S hS

theorem coreStep_some_eq (schema : List String) (S : List Nat) (c : CoreData)
    (tr : Nat) (acc : List GalRec) (hS : S.Sorted (· < ·)) :
    coreStep schema (some S) c tr acc =
      (acc ++ (S.filter (fun i => decide (tr ≤ i) && decide (i < tr + c.galaxies.length))).map
          (fun i => rebaseCG schema (tr : Int) (c.galaxies.getD (i - tr) [])),
        tr + c.galaxies.length) := by
  unfold coreStep
  dsimp only
  split
  · rename_i h0
    have hW : S.filter (fun i => decide (tr ≤ i) && decide (i < tr + c.galaxies.length)) = [] := by
      rw [List.filter_eq_nil_iff]
      intro i _
      simp
      omega
    rw [hW]
    simp [h0]
  · rename_i h0
    have hloc : (List.range c.galaxies.length).filter
        (fun j => (readIndOf S tr c.galaxies.length).contains j) =
          readIndOf S tr c.galaxies.length :=
      sorted_recover _ _ (readIndOf_sorted S tr c.galaxies.length hS)
        (fun j hj => readIndOf_mem_lt S tr _ j hj)
    rw [hloc]
    split
    · rename_i hpos
      refine Prod.ext ?_ rfl
      simp only []
      congr 1
      rw [List.map_map]
      unfold readIndOf
      rw [List.map_map]
      rfl
    · rename_i hpos
      have hnil : readIndOf S tr c.galaxies.length = [] := by
        cases hr : readIndOf S tr c.galaxies.length with
        | nil => rfl
        | cons a l => rw [hr] at hpos; simp at hpos
      have hW : S.filter (fun i => decide (tr ≤ i) && decide (i < tr + c.galaxies.length)) = [] := by
        unfold readIndOf at hnil
        exact List.map_eq_nil_iff.mp hnil
      rw [hW]
      simp

theorem galsLoop_some_eq (schema : List String) (S : List Nat) (ngals : Nat)
    (cores : List CoreData) (tr : Nat) (acc : List GalRec)
    (hS : S.Sorted (· < ·))
    (hrange : ∀ i ∈ S, i < tr + totalGals cores)
    (hle : acc.length + (S.filter (fun i => decide (tr ≤ i))).length ≤ ngals) :
    galsLoop schema ngals (some S) cores tr acc =
      acc ++ (S.filter (fun i => decide (tr ≤ i))).map
        (fun i => (assembleFrom schema tr cores).getD (i - tr) []) := by
  induction cores generalizing tr acc with
  | nil =>
    have hL : S.filter (fun i => decide (tr ≤ i)) = [] := by
      rw [List.filter_eq_nil_iff]
      intro i hi
      have := hrange i hi
      simp [totalGals] at this
      simp
      omega
    simp [galsLoop, hL, assembleFrom]
  | cons c rest ih =>
    have hsplit := filter_ge_split tr c.galaxies.length S hS
    have htot : totalGals (c :: rest) = c.galaxies.length + totalGals rest := by
      simp [totalGals]
    rw [galsLoop, coreStep_some_eq _ _ _ _ _ hS]
    simp only [List.length_append, List.length_map]
    have hWmap : ∀ i ∈ S.filter (fun i => decide (tr ≤ i) && decide (i < tr + c.galaxies.length)),
        (assembleFrom schema tr (c :: rest)).getD (i - tr) [] =
          rebaseCG schema (tr : Int) (c.galaxies.getD (i - tr) []) := by
      intro i hi
      have hiw := List.of_mem_filter hi
      simp at hiw
      rw [assembleFrom, getD_append_left_rec _ _ _ (by simp; omega)]
      exact getD_map_rebase _ _ _ (by omega)
    have hTmap : ∀ i ∈ S.filter (fun i => decide (tr + c.galaxies.length ≤ i)),
        (assembleFrom schema tr (c :: rest)).getD (i - tr) [] =
          (assembleFrom schema (tr + c.galaxies.length) rest).getD
            (i - (tr + c.galaxies.length)) [] := by
      intro i hi
      have hiw := List.of_mem_filter hi
      simp at hiw
      rw [assembleFrom, getD_append_right_rec _ _ _ (by simp; omega)]
      congr 1
      simp
      omega
    split
    · rename_i hbreak
      have hlen : (S.filter (fun i => decide (tr ≤ i))).length =
          (S.filter (fun i => decide (tr ≤ i) && decide (i < tr + c.galaxies.length))).length +
            (S.filter (fun i => decide (tr + c.galaxies.length ≤ i))).length := by
        rw [hsplit]
        simp
      have hT : S.filter (fun i => decide (tr + c.galaxies.length ≤ i)) = [] := by
        apply List.length_eq_zero.mp
        omega
      rw [hsplit, hT, List.append_nil, List.map_congr_left hWmap]
    · rename_i hbreak
      have hlen : (S.filter (fun i => decide (tr ≤ i))).length =
          (S.filter (fun i => decide (tr ≤ i) && decide (i < tr + c.galaxies.length))).length +
            (S.filter (fun i => decide (tr + c.galaxies.length ≤ i))).length := by
        rw [hsplit]
        simp
      rw [ih (tr + c.galaxies.length) _ (by intro i hi; have := hrange i hi; omega)
        (by simp only [List.length_append, List.length_map]; omega)]
      rw [hsplit, List.map_append, List.map_congr_left hWmap, List.map_congr_left hTmap]
      rw [List.append_assoc]

/-! Unfolding and inversion lemmas for the embedded entry points. -/

theorem read_gals_run_none_eq (f : MFile) (s : Nat) (snap : Snapshot) (c0 : CoreData)
    (hs : f.snaps[s]? = some snap) (h0 : snap.nGalaxies ≠ 0) (hc : f.nCores ≠ 0)
    (hc0 : snap.cores[0]? = some c0) :
    read_gals_run f s none =
      (Except.ok (galsLoop c0.gschema snap.nGalaxies none snap.cores 0 []), true) := by
  unfold read_gals_run
  rw [hs]
  dsimp only
  rw [if_neg h0, if_neg hc, hc0]
  simp only [Option.map_none']
  rw [if_pos (Nat.pos_of_ne_zero h0)]

theorem read_gals_run_some_eq (f : MFile) (s : Nat) (snap : Snapshot) (c0 : CoreData)
    (S : List Nat)
    (hs : f.snaps[s]? = some snap) (h0 : snap.nGalaxies ≠ 0) (hc : f.nCores ≠ 0)
    (hc0 : snap.cores[0]? = some c0) :
    read_gals_run f s (some S) =
      (Except.ok (if 0 < (sortIndices S).length then
        galsLoop c0.gschema (sortIndices S).length (some (sortIndices S)) snap.cores 0 []
      else []), true) := by
  unfold read_gals_run
  rw [hs]
  dsimp only
  rw [if_neg h0, if_neg hc, hc0]
  simp only [Option.map_some']

theorem read_gals_ok_inv (f : MFile) (s : Nat) (idx : Option (List Nat))
    (out : List GalRec) (snap : Snapshot)
    (h : read_gals f s idx = Except.ok out) (hs : f.snaps[s]? = some snap) :
    snap.nGalaxies ≠ 0 ∧ f.nCores ≠ 0 ∧ ∃ c0, snap.cores[0]? = some c0 := by
  unfold read_gals read_gals_run at h
  rw [hs] at h
  dsimp only at h
  by_cases h0 : snap.nGalaxies = 0
  · rw [if_pos h0] at h
    simp at h
  · rw [if_neg h0] at h
    by_cases hc : f.nCores = 0
    · rw [if_pos hc] at h
      simp at h
    · rw [if_neg hc] at h
      cases hc0 : snap.cores[0]? with
      | none => rw [hc0] at h; simp at h
      | some c0 => exact ⟨h0, hc, c0, rfl⟩

/-! Lemmas about the shared linkage-rebasing shape. -/

theorem rebaseConcat_sentinel (chunks : List (List Int)) (offsets : List Int)
    (p : Nat) (hlen : offsets.length = chunks.length)
    (hp : chunks.flatten[p]? = some (-1)) :
    (rebaseConcat chunks offsets)[p]? = some (-1) := by
  induction chunks generalizing offsets p with
  | nil => simp at hp
  | cons l ls ih =>
    cases offsets with
    | nil => simp at hlen
    | cons o os =>
      rw [List.flatten_cons] at hp
      simp only [rebaseConcat, List.zipWith_cons_cons, List.flatten_cons]
      by_cases hc : p < l.length
      · rw [List.getElem?_append, if_pos hc] at hp
        rw [List.getElem?_append, if_pos (by simpa [rebaseVals] using hc)]
        rw [rebaseVals, List.getElem?_map, hp]
        simp [rebase1]
      · rw [List.getElem?_append_right (by omega)] at hp
        rw [List.getElem?_append_right (by simp [rebaseVals]; omega)]
        have := ih os _ (by simpa using hlen) hp
        simpa [rebaseVals, rebaseConcat] using this

theorem rebaseConcat_getElem (chunks : List (List Int)) (offsets : List Int)
    (k j : Nat) (hlen : offsets.length = chunks.length) (hk : k < chunks.length)
    (hj : j < (chunks.getD k []).length) :
    (rebaseConcat chunks offsets)[chunkStart chunks k + j]? =
      some (rebase1 ((chunks.getD k []).getD j 0) (offsets.getD k 0)) := by
  induction chunks generalizing offsets k with
  | nil => simp at hk
  | cons l ls ih =>
    cases offsets with
    | nil => simp at hlen
    | cons o os =>
      cases k with
      | zero =>
        simp only [List.getD_cons_zero] at hj ⊢
        have h0 : chunkStart (l :: ls) 0 = 0 := by simp [chunkStart]
        rw [h0, Nat.zero_add]
        simp only [rebaseConcat, List.zipWith_cons_cons, List.flatten_cons]
        rw [List.getElem?_append, if_pos (by simp [rebaseVals]; omega)]
        rw [rebaseVals, List.getElem?_map, List.getElem?_eq_getElem hj]
        simp [List.getD_eq_getElem?_getD, List.getElem?_eq_getElem hj]
      | succ k =>
        simp only [List.getD_cons_succ] at hj ⊢
        have hst : chunkStart (l :: ls) (k + 1) = l.length + chunkStart ls k := by
          simp [chunkStart, List.take_succ_cons]
        rw [hst]
        simp only [rebaseConcat, List.zipWith_cons_cons, List.flatten_cons]
        rw [List.getElem?_append_right (by simp [rebaseVals]; omega)]
        have harith : l.length + chunkStart ls k + j - (rebaseVals l o).length =
            chunkStart ls k + j := by
          simp only [rebaseVals, List.length_map]
          omega
        rw [harith]
        exact ih os k (by simpa using hlen) (by simpa using hk) hj

theorem galOffsetTable_length (tc : List CoreData) (n : Nat) :
    (galOffsetTable tc n).length = n := by
  simp [galOffsetTable]

theorem galOffsetTable_getD (tc : List CoreData) (n k : Nat) (hk : k < n) :
    (galOffsetTable tc n).getD k 0 = (coreOffset tc k : Int) := by
  unfold galOffsetTable
  rw [List.getD_eq_getElem?_getD, List.getElem?_map, List.getElem?_range hk]
  simp

theorem npOffsetTable_length (cores : List CoreData) :
    (npOffsetTable cores).length = cores.length := by
  simp [npOffsetTable]

theorem npOffsetTable_getD (cores : List CoreData) (k : Nat) (hk : k < cores.length) :
    (npOffsetTable cores).getD k 0 = (npOffset cores k : Int) := by
  unfold npOffsetTable
  rw [List.getD_eq_getElem?_getD, List.getElem?_map, List.getElem?_range hk]
  simp

theorem chunkStart_map (g : CoreData → List Int) (cores : List CoreData) (k : Nat) :
    chunkStart (cores.map g) k = ((cores.take k).map (fun c => (g c).length)).sum := by
  unfold chunkStart
  rw [← List.map_take, List.map_map]
  rfl

theorem getD_map_core (g : CoreData → List Int) (cores : List CoreData) (k : Nat)
    (hk : k < cores.length) :
    (cores.map g).getD k [] = g (cores.getD k emptyCore) := by
  rw [List.getD_eq_getElem?_getD, List.getElem?_map, List.getElem?_eq_getElem hk]
  simp [List.getD_eq_getElem?_getD, List.getElem?_eq_getElem hk]

theorem npOffset_eq_coreOffset (cores : List CoreData) (k : Nat)
    (hlen : ∀ c ∈ cores, c.npIndices.length = c.galaxies.length) :
    npOffset cores k = coreOffset cores k := by
  unfold npOffset coreOffset totalGals
  congr 1
  apply List.map_congr_left
  intro c hc
  exact hlen c (List.mem_of_mem_take hc)

theorem read_fp_eq (f : MFile) (s : Nat) (snap prev : Snapshot)
    (hs : f.snaps[s]? = some snap) (hs0 : s ≠ 0)
    (hprev : f.snaps[s - 1]? = some prev) :
    read_firstprogenitor_indices f s =
      Except.ok (rebaseConcat (snap.cores.map (fun c => c.fpIndices))
        (galOffsetTable prev.cores snap.cores.length)) := by
  unfold read_firstprogenitor_indices
  rw [hs]
  dsimp only
  rw [if_neg hs0, hprev]

theorem read_np_eq (f : MFile) (s : Nat) (snap : Snapshot)
    (hs : f.snaps[s]? = some snap) :
    read_nextprogenitor_indices f s =
      Except.ok (rebaseConcat (snap.cores.map (fun c => c.npIndices))
        (npOffsetTable snap.cores)) := by
  unfold read_nextprogenitor_indices
  rw [hs]

theorem read_desc_eq (f : MFile) (s : Nat) (snap next : Snapshot)
    (hs : f.snaps[s]? = some snap)
    (hnext : f.snaps[s + 1]? = some next) :
    read_descendant_indices f s =
      Except.ok (rebaseConcat (snap.cores.map (fun c => c.descIndices))
        (galOffsetTable next.cores snap.cores.length)) := by
  unfold read_descendant_indices
  rw [hs]
  dsimp only
  rw [hnext]

theorem read_fp_ok_inv (f : MFile) (s : Nat) (out : List Int) (snap : Snapshot)
    (h : read_firstprogenitor_indices f s = Except.ok out)
    (hs : f.snaps[s]? = some snap) :
    ∃ prev : Snapshot, out = rebaseConcat (snap.cores.map (fun c => c.fpIndices))
      (galOffsetTable prev.cores snap.cores.length) := by
  unfold read_firstprogenitor_indices at h
  rw [hs] at h
  dsimp only at h
  cases hp : (if s = 0 then none else f.snaps[s - 1]?) with
  | none => rw [hp] at h; simp at h
  | some prev =>
    rw [hp] at h
    dsimp only at h
    injection h with h2
    exact ⟨prev, h2.symm⟩

theorem read_np_ok_inv (f : MFile) (s : Nat) (out : List Int) (snap : Snapshot)
    (h : read_nextprogenitor_indices f s = Except.ok out)
    (hs : f.snaps[s]? = some snap) :
    out = rebaseConcat (snap.cores.map (fun c => c.npIndices)) (npOffsetTable snap.cores) := by
  unfold read_nextprogenitor_indices at h
  rw [hs] at h
  simp at h
  exact h.symm

theorem read_desc_ok_inv (f : MFile) (s : Nat) (out : List Int) (snap : Snapshot)
    (h : read_descendant_indices f s = Except.ok out)
    (hs : f.snaps[s]? = some snap) :
    ∃ next : Snapshot, out = rebaseConcat (snap.cores.map (fun c => c.descIndices))
      (galOffsetTable next.cores snap.cores.length) := by
  unfold read_descendant_indices at h
  rw [hs] at h
  dsimp only at h
  cases hp : f.snaps[s + 1]? with
  | none => rw [hp] at h; simp at h
  | some next =>
    rw [hp] at h
    dsimp only at h
    injection h with h2
    exact ⟨next, h2.symm⟩

/-! Claim theorems. -/

/-- C7: for every snapshot whose NGalaxies attribute equals 0, read_gals
raises the explicit empty-snapshot error (the IndexError of
io.py:150-151) rather than silently returning a zero-length buffer —
for any index selection. -/
theorem read_gals_empty_snapshot_raises (f : MFile) (s : Nat) (snap : Snapshot)
    (idx : Option (List Nat))
    (hs : f.snaps[s]? = some snap) (h0 : snap.nGalaxies = 0) :
    read_gals f s idx = Except.error ReadErr.emptySnapshot := by
  unfold read_gals read_gals_run
  rw [hs]
  dsimp only
  rw [if_pos h0]

/-- Witness for C7: a concrete file whose snapshot 0 has NGalaxies = 0. -/
theorem read_gals_empty_snapshot_raises_witness :
    (cxC7.snaps[0]? = some snapC7 ∧ snapC7.nGalaxies = 0) ∧
    read_gals cxC7 0 none = Except.error ReadErr.emptySnapshot :=
  ⟨⟨rfl, rfl⟩, read_gals_empty_snapshot_raises cxC7 0 snapC7 none rfl rfl⟩

/-- C9 (counterexample): read_gals does not close its file handle on the
empty-snapshot error exit: on a snapshot with NGalaxies = 0 it raises
with the handle opened at io.py:128 still open, because the only
`fin.close()` sits at io.py:263 on the success path and no scope guard
exists.  This falsifies the claim that every exit path closes the
handle. -/
theorem read_gals_handle_leak_counterexample :
    read_gals_run cxC9 0 none = (Except.error ReadErr.emptySnapshot, false) := rfl

/-- C9 (amended): read_gals closes the file handle it opened exactly on
the successful-return path; every early error exit (missing snapshot,
empty snapshot, unresolvable schema, missing core group) leaves the
handle open. -/
theorem read_gals_closes_iff_success (f : MFile) (s : Nat) (idx : Option (List Nat)) :
    (read_gals_run f s idx).2 = (read_gals_run f s idx).1.isOk := by
  unfold read_gals_run
  cases hs : f.snaps[s]? with
  | none => rfl
  | some snap =>
    dsimp only
    by_cases h0 : snap.nGalaxies = 0
    · rw [if_pos h0]
      rfl
    · rw [if_neg h0]
      by_cases hc : f.nCores = 0
      · rw [if_pos hc]
        rfl
      · rw [if_neg hc]
        cases hc0 : snap.cores[0]? with
        | none => rfl
        | some c0 => rfl

/-- C10: read_gals sorts a supplied index selection in place
(io.py:155-156) before assembling, so for a duplicate-free selection the
returned buffer equals the one for the ascending-sorted selection: the
result depends only on the set of requested indices. -/
theorem read_gals_selection_order_independent (f : MFile) (s : Nat) (S : List Nat)
    (hnd : S.Nodup) :
    read_gals f s (some S) = read_gals f s (some (sortIndices S)) := by
  unfold read_gals read_gals_run
  cases hs : f.snaps[s]? with
  | none => rfl
  | some snap =>
    dsimp only
    simp only [Option.map_some']
    rw [sortIndices_idem]

/-- Witness for C10: an unsorted selection against a concrete file gives
the buffer of its sorted version. -/
theorem read_gals_selection_order_independent_witness :
    ([2, 0] : List Nat).Nodup ∧
    read_gals cxC10 0 (some [2, 0]) = read_gals cxC10 0 (some (sortIndices [2, 0])) :=
  ⟨by decide, read_gals_selection_order_independent cxC10 0 [2, 0] (by decide)⟩

/-- C2: for each of the three rebasing operations, a raw linkage value
equal to the sentinel -1 at any position p maps to -1 in the returned
array, never to offset + (-1): the mask `value > -1` of
io.py:676/733/803 excludes the sentinel from the offset addition. -/
theorem linkage_sentinel_invariance (f : MFile) (s : Nat) (snap : Snapshot)
    (outF outN outD : List Int) (p : Nat)
    (hs : f.snaps[s]? = some snap)
    (hF : read_firstprogenitor_indices f s = Except.ok outF)
    (hN : read_nextprogenitor_indices f s = Except.ok outN)
    (hD : read_descendant_indices f s = Except.ok outD) :
    (((snap.cores.map (fun c => c.fpIndices)).flatten)[p]? = some (-1) →
      outF[p]? = some (-1)) ∧
    (((snap.cores.map (fun c => c.npIndices)).flatten)[p]? = some (-1) →
      outN[p]? = some (-1)) ∧
    (((snap.cores.map (fun c => c.descIndices)).flatten)[p]? = some (-1) →
      outD[p]? = some (-1)) := by
  refine ⟨?_, ?_, ?_⟩
  · intro hp
    rcases read_fp_ok_inv f s outF snap hF hs with ⟨prev, rfl⟩
    exact rebaseConcat_sentinel _ _ p (by simp [galOffsetTable_length]) hp
  · intro hp
    have he := read_np_ok_inv f s outN snap hN hs
    subst he
    exact rebaseConcat_sentinel _ _ p (by simp [npOffsetTable_length]) hp
  · intro hp
    rcases read_desc_ok_inv f s outD snap hD hs with ⟨next, rfl⟩
    exact rebaseConcat_sentinel _ _ p (by simp [galOffsetTable_length]) hp

/-- Witness for C2: a concrete three-snapshot file whose middle snapshot
carries a sentinel in each linkage dataset; all three reads keep it. -/
theorem linkage_sentinel_invariance_witness :
    (cxC2.snaps[1]? = some snapC2cur ∧
      read_firstprogenitor_indices cxC2 1 = Except.ok [-1] ∧
      read_nextprogenitor_indices cxC2 1 = Except.ok [-1] ∧
      read_descendant_indices cxC2 1 = Except.ok [-1]) ∧
    ((((snapC2cur.cores.map (fun c => c.fpIndices)).flatten)[0]? = some (-1) →
        ([-1] : List Int)[0]? = some (-1)) ∧
      (((snapC2cur.cores.map (fun c => c.npIndices)).flatten)[0]? = some (-1) →
        ([-1] : List Int)[0]? = some (-1)) ∧
      (((snapC2cur.cores.map (fun c => c.descIndices)).flatten)[0]? = some (-1) →
        ([-1] : List Int)[0]? = some (-1))) :=
  ⟨⟨rfl, rfl, rfl, rfl⟩,
    linkage_sentinel_invariance cxC2 1 snapC2cur [-1] [-1] [-1] 0 rfl rfl rfl rfl⟩

/-- C3: read_firstprogenitor_indices rebases core k's non-sentinel
values by the PREVIOUS snapshot's cumulative galaxy count of cores
0..k-1 (io.py:656-676), and read_descendant_indices symmetrically by the
NEXT snapshot's (io.py:783-803) — the adjacent snapshot's offsets, not
the current snapshot's. -/
theorem linkage_adjacent_snapshot_offsets (f : MFile) (s : Nat)
    (snap prev next : Snapshot) (k j : Nat)
    (hs : f.snaps[s]? = some snap) (hs0 : s ≠ 0)
    (hprev : f.snaps[s - 1]? = some prev) (hnext : f.snaps[s + 1]? = some next)
    (hplen : prev.cores.length = snap.cores.length)
    (hnlen : next.cores.length = snap.cores.length)
    (hk : k < snap.cores.length)
    (hjF : j < (snap.cores.getD k emptyCore).fpIndices.length)
    (hvF : (snap.cores.getD k emptyCore).fpIndices.getD j 0 > -1)
    (hjD : j < (snap.cores.getD k emptyCore).descIndices.length)
    (hvD : (snap.cores.getD k emptyCore).descIndices.getD j 0 > -1) :
    (∃ outF, read_firstprogenitor_indices f s = Except.ok outF ∧
      outF[chunkStart (snap.cores.map (fun c => c.fpIndices)) k + j]? =
        some ((snap.cores.getD k emptyCore).fpIndices.getD j 0 +
          (coreOffset prev.cores k : Int))) ∧
    (∃ outD, read_descendant_indices f s = Except.ok outD ∧
      outD[chunkStart (snap.cores.map (fun c => c.descIndices)) k + j]? =
        some ((snap.cores.getD k emptyCore).descIndices.getD j 0 +
          (coreOffset next.cores k : Int))) := by
  constructor
  · refine ⟨_, read_fp_eq f s snap prev hs hs0 hprev, ?_⟩
    have hg := rebaseConcat_getElem (snap.cores.map (fun c => c.fpIndices))
      (galOffsetTable prev.cores snap.cores.length) k j
      (by simp [galOffsetTable_length]) (by simpa using hk)
      (by rw [getD_map_core _ _ _ hk]; exact hjF)
    rw [getD_map_core _ _ _ hk, galOffsetTable_getD _ _ _ hk] at hg
    rw [hg, rebase1, if_pos hvF]
  · refine ⟨_, read_desc_eq f s snap next hs hnext, ?_⟩
    have hg := rebaseConcat_getElem (snap.cores.map (fun c => c.descIndices))
      (galOffsetTable next.cores snap.cores.length) k j
      (by simp [galOffsetTable_length]) (by simpa using hk)
      (by rw [getD_map_core _ _ _ hk]; exact hjD)
    rw [getD_map_core _ _ _ hk, galOffsetTable_getD _ _ _ hk] at hg
    rw [hg, rebase1, if_pos hvD]

/-- Witness for C3: in a concrete three-snapshot file, core 1's
first-progenitor value 1 rebases to 1 + 2 (the previous snapshot's core
0 holds 2 records) and its descendant value 0 rebases to 0 + 3 (the
next snapshot's core 0 holds 3 records). -/
theorem linkage_adjacent_snapshot_offsets_witness :
    (cxC3.snaps[1]? = some snapC3cur ∧ (1 : Nat) ≠ 0 ∧
      cxC3.snaps[0]? = some snapC3prev ∧ cxC3.snaps[2]? = some snapC3next ∧
      snapC3prev.cores.length = snapC3cur.cores.length ∧
      snapC3next.cores.length = snapC3cur.cores.length ∧ 1 < snapC3cur.cores.length ∧
      0 < (snapC3cur.cores.getD 1 emptyCore).fpIndices.length ∧
      (snapC3cur.cores.getD 1 emptyCore).fpIndices.getD 0 0 > -1 ∧
      0 < (snapC3cur.cores.getD 1 emptyCore).descIndices.length ∧
      (snapC3cur.cores.getD 1 emptyCore).descIndices.getD 0 0 > -1) ∧
    ((∃ outF, read_firstprogenitor_indices cxC3 1 = Except.ok outF ∧
      outF[chunkStart (snapC3cur.cores.map (fun c => c.fpIndices)) 1 + 0]? =
        some ((snapC3cur.cores.getD 1 emptyCore).fpIndices.getD 0 0 +
          (coreOffset snapC3prev.cores 1 : Int))) ∧
    (∃ outD, read_descendant_indices cxC3 1 = Except.ok outD ∧
      outD[chunkStart (snapC3cur.cores.map (fun c => c.descIndices)) 1 + 0]? =
        some ((snapC3cur.cores.getD 1 emptyCore).descIndices.getD 0 0 +
          (coreOffset snapC3next.cores 1 : Int)))) :=
  ⟨⟨rfl, by decide, rfl, rfl, by decide, by decide, by decide, by decide, by decide,
      by decide, by decide⟩,
    linkage_adjacent_snapshot_offsets cxC3 1 snapC3cur snapC3prev snapC3next 1 0
      rfl (by decide) rfl rfl (by decide) (by decide) (by decide) (by decide) (by decide)
      (by decide) (by decide)⟩

/-- C4: read_nextprogenitor_indices rebases core k's non-sentinel values
by the CURRENT snapshot's own cumulative record count of cores 0..k-1
(the running `counter` of io.py:726-734), so next-progenitor chains link
within the same assembled table. -/
theorem nextprogenitor_current_snapshot_offsets (f : MFile) (s : Nat)
    (snap : Snapshot) (k j : Nat)
    (hs : f.snaps[s]? = some snap)
    (hlen : ∀ c ∈ snap.cores, c.npIndices.length = c.galaxies.length)
    (hk : k < snap.cores.length)
    (hj : j < (snap.cores.getD k emptyCore).npIndices.length)
    (hv : (snap.cores.getD k emptyCore).npIndices.getD j 0 > -1) :
    ∃ outN, read_nextprogenitor_indices f s = Except.ok outN ∧
      outN[coreOffset snap.cores k + j]? =
        some ((snap.cores.getD k emptyCore).npIndices.getD j 0 +
          (coreOffset snap.cores k : Int)) := by
  refine ⟨_, read_np_eq f s snap hs, ?_⟩
  have hg := rebaseConcat_getElem (snap.cores.map (fun c => c.npIndices))
    (npOffsetTable snap.cores) k j
    (by simp [npOffsetTable_length]) (by simpa using hk)
    (by rw [getD_map_core _ _ _ hk]; exact hj)
  rw [getD_map_core _ _ _ hk, npOffsetTable_getD _ _ hk] at hg
  have hpos : chunkStart (snap.cores.map (fun c => c.npIndices)) k = coreOffset snap.cores k := by
    rw [chunkStart_map]
    exact npOffset_eq_coreOffset snap.cores k hlen
  rw [hpos] at hg
  rw [hg, rebase1, if_pos hv, npOffset_eq_coreOffset snap.cores k hlen]

/-- Witness for C4: in a concrete two-core snapshot, core 1's
next-progenitor value 0 rebases to 0 + 1, core 0 holding one record. -/
theorem nextprogenitor_current_snapshot_offsets_witness :
    (cxC4.snaps[0]? = some snapC4 ∧
      (∀ c ∈ snapC4.cores, c.npIndices.length = c.galaxies.length) ∧
      1 < snapC4.cores.length ∧
      0 < (snapC4.cores.getD 1 emptyCore).npIndices.length ∧
      (snapC4.cores.getD 1 emptyCore).npIndices.getD 0 0 > -1) ∧
    (∃ outN, read_nextprogenitor_indices cxC4 0 = Except.ok outN ∧
      outN[coreOffset snapC4.cores 1 + 0]? =
        some ((snapC4.cores.getD 1 emptyCore).npIndices.getD 0 0 +
          (coreOffset snapC4.cores 1 : Int))) :=
  ⟨⟨rfl, by decide, by decide, by decide, by decide⟩,
    nextprogenitor_current_snapshot_offsets cxC4 0 snapC4 1 0 rfl (by decide)
      (by decide) (by decide) (by decide)⟩

/-- C6 (counterexample): none of the three linkage reads raises on a
rebased index falling outside the target snapshot's total.  In a
concrete file whose adjacent snapshots each hold 1 record, raw values
5, 9 and 11 rebase to 5, 9 and 11 — all outside [0, 1) — and all three
operations return them to the caller instead of raising: the code has
no range check at all (io.py:668-676, 726-734, 795-803). -/
theorem linkage_out_of_range_counterexample :
    read_firstprogenitor_indices cxC6 1 = Except.ok [5] ∧
    read_nextprogenitor_indices cxC6 1 = Except.ok [9] ∧
    read_descendant_indices cxC6 1 = Except.ok [11] ∧
    totalGals snapC6prev.cores = 1 ∧ totalGals snapC6cur.cores = 1 ∧
    totalGals snapC6next.cores = 1 ∧
    ¬((5 : Int) < 1) ∧ ¬((9 : Int) < 1) ∧ ¬((11 : Int) < 1) :=
  ⟨rfl, rfl, rfl, rfl, rfl, rfl, by decide, by decide, by decide⟩

/-- C6 (amended): the three linkage reads perform no range validation:
whenever the required snapshot groups are present, they return
Except.ok, and a non-sentinel value whose rebased result falls at or
above the target snapshot's total record count is returned unchecked
rather than raising. -/
theorem linkage_no_range_validation (f : MFile) (s : Nat)
    (snap prev next : Snapshot) (k j : Nat)
    (hs : f.snaps[s]? = some snap) (hs0 : s ≠ 0)
    (hprev : f.snaps[s - 1]? = some prev) (hnext : f.snaps[s + 1]? = some next)
    (hplen : prev.cores.length = snap.cores.length)
    (hnlen : next.cores.length = snap.cores.length)
    (hk : k < snap.cores.length)
    (hjF : j < (snap.cores.getD k emptyCore).fpIndices.length)
    (hvF : (snap.cores.getD k emptyCore).fpIndices.getD j 0 > -1)
    (hoorF : (totalGals prev.cores : Int) ≤
      (snap.cores.getD k emptyCore).fpIndices.getD j 0 + (coreOffset prev.cores k : Int))
    (hjN : j < (snap.cores.getD k emptyCore).npIndices.length)
    (hvN : (snap.cores.getD k emptyCore).npIndices.getD j 0 > -1)
    (hoorN : (totalGals snap.cores : Int) ≤
      (snap.cores.getD k emptyCore).npIndices.getD j 0 + (npOffset snap.cores k : Int))
    (hjD : j < (snap.cores.getD k emptyCore).descIndices.length)
    (hvD : (snap.cores.getD k emptyCore).descIndices.getD j 0 > -1)
    (hoorD : (totalGals next.cores : Int) ≤
      (snap.cores.getD k emptyCore).descIndices.getD j 0 + (coreOffset next.cores k : Int)) :
    (∃ outF, read_firstprogenitor_indices f s = Except.ok outF ∧
      outF[chunkStart (snap.cores.map (fun c => c.fpIndices)) k + j]? =
        some ((snap.cores.getD k emptyCore).fpIndices.getD j 0 +
          (coreOffset prev.cores k : Int)) ∧
      (totalGals prev.cores : Int) ≤ (snap.cores.getD k emptyCore).fpIndices.getD j 0 +
        (coreOffset prev.cores k : Int)) ∧
    (∃ outN, read_nextprogenitor_indices f s = Except.ok outN ∧
      outN[chunkStart (snap.cores.map (fun c => c.npIndices)) k + j]? =
        some ((snap.cores.getD k emptyCore).npIndices.getD j 0 +
          (npOffset snap.cores k : Int)) ∧
      (totalGals snap.cores : Int) ≤ (snap.cores.getD k emptyCore).npIndices.getD j 0 +
        (npOffset snap.cores k : Int)) ∧
    (∃ outD, read_descendant_indices f s = Except.ok outD ∧
      outD[chunkStart (snap.cores.map (fun c => c.descIndices)) k + j]? =
        some ((snap.cores.getD k emptyCore).descIndices.getD j 0 +
          (coreOffset next.cores k : Int)) ∧
      (totalGals next.cores : Int) ≤ (snap.cores.getD k emptyCore).descIndices.getD j 0 +
        (coreOffset next.cores k : Int)) := by
  refine ⟨⟨_, read_fp_eq f s snap prev hs hs0 hprev, ?_, hoorF⟩,
    ⟨_, read_np_eq f s snap hs, ?_, hoorN⟩,
    ⟨_, read_desc_eq f s snap next hs hnext, ?_, hoorD⟩⟩
  · have hg := rebaseConcat_getElem (snap.cores.map (fun c => c.fpIndices))
      (galOffsetTable prev.cores snap.cores.length) k j
      (by simp [galOffsetTable_length]) (by simpa using hk)
      (by rw [getD_map_core _ _ _ hk]; exact hjF)
    rw [getD_map_core _ _ _ hk, galOffsetTable_getD _ _ _ hk] at hg
    rw [hg, rebase1, if_pos hvF]
  · have hg := rebaseConcat_getElem (snap.cores.map (fun c => c.npIndices))
      (npOffsetTable snap.cores) k j
      (by simp [npOffsetTable_length]) (by simpa using hk)
      (by rw [getD_map_core _ _ _ hk]; exact hjN)
    rw [getD_map_core _ _ _ hk, npOffsetTable_getD _ _ hk] at hg
    rw [hg, rebase1, if_pos hvN]
  · have hg := rebaseConcat_getElem (snap.cores.map (fun c => c.descIndices))
      (galOffsetTable next.cores snap.cores.length) k j
      (by simp [galOffsetTable_length]) (by simpa using hk)
      (by rw [getD_map_core _ _ _ hk]; exact hjD)
    rw [getD_map_core _ _ _ hk, galOffsetTable_getD _ _ _ hk] at hg
    rw [hg, rebase1, if_pos hvD]

/-- Witness for the amended C6: the corrupted-linkage file of the
counterexample, where every rebased value lands outside its target's
total yet is returned. -/
theorem linkage_no_range_validation_witness :
    ((totalGals snapC6prev.cores : Int) ≤
        (snapC6cur.cores.getD 0 emptyCore).fpIndices.getD 0 0 +
          (coreOffset snapC6prev.cores 0 : Int) ∧
      (totalGals snapC6cur.cores : Int) ≤
        (snapC6cur.cores.getD 0 emptyCore).npIndices.getD 0 0 +
          (npOffset snapC6cur.cores 0 : Int) ∧
      (totalGals snapC6next.cores : Int) ≤
        (snapC6cur.cores.getD 0 emptyCore).descIndices.getD 0 0 +
          (coreOffset snapC6next.cores 0 : Int)) ∧
    ((∃ outF, read_firstprogenitor_indices cxC6 1 = Except.ok outF ∧
      outF[chunkStart (snapC6cur.cores.map (fun c => c.fpIndices)) 0 + 0]? =
        some ((snapC6cur.cores.getD 0 emptyCore).fpIndices.getD 0 0 +
          (coreOffset snapC6prev.cores 0 : Int)) ∧
      (totalGals snapC6prev.cores : Int) ≤ (snapC6cur.cores.getD 0 emptyCore).fpIndices.getD 0 0 +
        (coreOffset snapC6prev.cores 0 : Int)) ∧
    (∃ outN, read_nextprogenitor_indices cxC6 1 = Except.ok outN ∧
      outN[chunkStart (snapC6cur.cores.map (fun c => c.npIndices)) 0 + 0]? =
        some ((snapC6cur.cores.getD 0 emptyCore).npIndices.getD 0 0 +
          (npOffset snapC6cur.cores 0 : Int)) ∧
      (totalGals snapC6cur.cores : Int) ≤ (snapC6cur.cores.getD 0 emptyCore).npIndices.getD 0 0 +
        (npOffset snapC6cur.cores 0 : Int)) ∧
    (∃ outD, read_descendant_indices cxC6 1 = Except.ok outD ∧
      outD[chunkStart (snapC6cur.cores.map (fun c => c.descIndices)) 0 + 0]? =
        some ((snapC6cur.cores.getD 0 emptyCore).descIndices.getD 0 0 +
          (coreOffset snapC6next.cores 0 : Int)) ∧
      (totalGals snapC6next.cores : Int) ≤ (snapC6cur.cores.getD 0 emptyCore).descIndices.getD 0 0 +
        (coreOffset snapC6next.cores 0 : Int))) :=
  ⟨⟨by decide, by decide, by decide⟩,
    linkage_no_range_validation cxC6 1 snapC6cur snapC6prev snapC6next 0 0
      rfl (by decide) rfl rfl (by decide) (by decide) (by decide) (by decide) (by decide)
      (by decide) (by decide) (by decide) (by decide) (by decide) (by decide) (by decide)⟩

/-- C1 (counterexample): with no selection, the assembled record at a
global position is NOT always equal to the owning core's on-disk record:
`__apply_offsets` (io.py:111-116, called at io.py:196) adds the core's
cumulative offset to the CentralGal field.  Concretely, with two
one-record cores whose CentralGal values are 0 on disk, the assembled
record at global position 1 (= offset 1 of core 1 + local 0) carries
CentralGal = 1 while core 1's on-disk record at local index 0 carries
CentralGal = 0. -/
theorem read_gals_conservation_counterexample :
    read_gals cxC1 0 none = Except.ok [[("CentralGal", 0)], [("CentralGal", 1)]] ∧
    coreOffset snapC1.cores 1 = 1 ∧
    (∃ out, read_gals cxC1 0 none = Except.ok out ∧
      out.getD (coreOffset snapC1.cores 1 + 0) [] ≠
        (snapC1.cores.getD 1 emptyCore).galaxies.getD 0 []) :=
  ⟨rfl, rfl, ⟨[[("CentralGal", 0)], [("CentralGal", 1)]], rfl, by decide⟩⟩

/-- C1 (amended): for every snapshot holding N ≥ 1 galaxies across C
cores (N = 0 raises, see C7), read_gals with no selection returns
exactly N records concatenated in ascending core-index order, and the
record at global position offset(k) + j equals core k's on-disk record
at local index j after the self-referential rebasing: when the resolved
schema carries the CentralGal field, that field is increased by core k's
cumulative offset; all other fields (and, schema without CentralGal, the
whole record) are returned unchanged. -/
theorem read_gals_conservation_rebased (f : MFile) (s : Nat) (snap : Snapshot)
    (hs : f.snaps[s]? = some snap)
    (hwf : snap.nGalaxies = totalGals snap.cores)
    (hpos : 0 < snap.nGalaxies)
    (hnc : f.nCores = snap.cores.length) :
    ∃ out, read_gals f s none = Except.ok out ∧ out.length = snap.nGalaxies ∧
      ∀ k j, k < snap.cores.length → j < ((snap.cores.getD k emptyCore).galaxies).length →
        out[coreOffset snap.cores k + j]? =
          some (rebaseCG (snap.cores.getD 0 emptyCore).gschema
            ((coreOffset snap.cores k : Nat) : Int)
            ((snap.cores.getD k emptyCore).galaxies.getD j [])) := by
  have hne : snap.cores ≠ [] := by
    intro hnil
    rw [hwf, hnil] at hpos
    simp [totalGals] at hpos
  have hc0 : snap.cores[0]? = some (snap.cores.getD 0 emptyCore) := by
    cases hcs : snap.cores with
    | nil => exact absurd hcs hne
    | cons a l => simp
  have hclen : 0 < snap.cores.length := by
    cases hcs : snap.cores with
    | nil => exact absurd hcs hne
    | cons a l => simp
  have hrun := read_gals_run_none_eq f s snap (snap.cores.getD 0 emptyCore) hs
    (Nat.pos_iff_ne_zero.mp hpos) (by omega) hc0
  refine ⟨assembleFrom (snap.cores.getD 0 emptyCore).gschema 0 snap.cores, ?_, ?_, ?_⟩
  · unfold read_gals
    rw [hrun]
    dsimp only
    rw [galsLoop_none_eq _ snap.nGalaxies snap.cores 0 [] (by simp [hwf])]
    rw [List.nil_append]
    rfl
  · rw [assembleFrom_length, hwf]
  · intro k j hk hj
    have := assembleFrom_getElem (snap.cores.getD 0 emptyCore).gschema snap.cores 0 k j hk hj
    simpa using this

/-- Witness for the amended C1: the two-core CentralGal file, where the
record at position 1 equals the on-disk record with CentralGal shifted
by core 1's offset. -/
theorem read_gals_conservation_rebased_witness :
    (cxC1.snaps[0]? = some snapC1 ∧ snapC1.nGalaxies = totalGals snapC1.cores ∧
      0 < snapC1.nGalaxies ∧ cxC1.nCores = snapC1.cores.length) ∧
    (∃ out, read_gals cxC1 0 none = Except.ok out ∧ out.length = snapC1.nGalaxies ∧
      ∀ k j, k < snapC1.cores.length → j < ((snapC1.cores.getD k emptyCore).galaxies).length →
        out[coreOffset snapC1.cores k + j]? =
          some (rebaseCG (snapC1.cores.getD 0 emptyCore).gschema
            ((coreOffset snapC1.cores k : Nat) : Int)
            ((snapC1.cores.getD k emptyCore).galaxies.getD j []))) :=
  ⟨⟨rfl, by decide, by decide, by decide⟩,
    read_gals_conservation_rebased cxC1 0 snapC1 rfl (by decide) (by decide) (by decide)⟩

/-- C8: when the resolved record schema lacks the CentralGal field (so
the field access in `__apply_offsets` raises the ValueError swallowed by
io.py:115-116), read_gals silently skips the offset addition for every
core and completes the no-selection assembly without raising: it returns
exactly the concatenated on-disk records. -/
theorem read_gals_schema_without_centralgal (f : MFile) (s : Nat) (snap : Snapshot)
    (hs : f.snaps[s]? = some snap)
    (hwf : snap.nGalaxies = totalGals snap.cores)
    (hpos : 0 < snap.nGalaxies)
    (hnc : f.nCores = snap.cores.length)
    (hg : ((snap.cores.getD 0 emptyCore).gschema).contains "CentralGal" = false) :
    read_gals f s none = Except.ok ((snap.cores.map (fun c => c.galaxies)).flatten) := by
  have hne : snap.cores ≠ [] := by
    intro hnil
    rw [hwf, hnil] at hpos
    simp [totalGals] at hpos
  have hc0 : snap.cores[0]? = some (snap.cores.getD 0 emptyCore) := by
    cases hcs : snap.cores with
    | nil => exact absurd hcs hne
    | cons a l => simp
  have hclen : 0 < snap.cores.length := by
    cases hcs : snap.cores with
    | nil => exact absurd hcs hne
    | cons a l => simp
  have hrun := read_gals_run_none_eq f s snap (snap.cores.getD 0 emptyCore) hs
    (Nat.pos_iff_ne_zero.mp hpos) (by omega) hc0
  unfold read_gals
  rw [hrun]
  dsimp only
  rw [galsLoop_none_eq _ snap.nGalaxies snap.cores 0 [] (by simp [hwf])]
  rw [List.nil_append]
  rw [assembleFrom_no_centralgal _ _ _ hg]

/-- Witness for C8: a two-core file whose schema has no CentralGal field
assembles to the raw concatenation with no error. -/
theorem read_gals_schema_without_centralgal_witness :
    (cxC8.snaps[0]? = some snapC8 ∧ snapC8.nGalaxies = totalGals snapC8.cores ∧
      0 < snapC8.nGalaxies ∧ cxC8.nCores = snapC8.cores.length ∧
      ((snapC8.cores.getD 0 emptyCore).gschema).contains "CentralGal" = false) ∧
    read_gals cxC8 0 none = Except.ok ((snapC8.cores.map (fun c => c.galaxies)).flatten) :=
  ⟨⟨rfl, by decide, by decide, by decide, by decide⟩,
    read_gals_schema_without_centralgal cxC8 0 snapC8 rfl (by decide) (by decide)
      (by decide) (by decide)⟩

/-- C5: for every strictly ascending (hence duplicate-free) selection S
of global indices inside [0, N), read_gals with indices = S returns
exactly the records of the no-selection assembly at those indices, in
the order of S: |S| records, destination offsets filled sequentially as
the cores are visited, gaps in the selection notwithstanding
(io.py:199-216). -/
theorem read_gals_selection_correct (f : MFile) (s : Nat) (snap : Snapshot)
    (S : List Nat) (gAll : List GalRec)
    (hs : f.snaps[s]? = some snap)
    (hwf : snap.nGalaxies = totalGals snap.cores)
    (hS : S.Sorted (· < ·))
    (hrange : ∀ i ∈ S, i < totalGals snap.cores)
    (hAll : read_gals f s none = Except.ok gAll) :
    read_gals f s (some S) = Except.ok (S.map (fun i => gAll.getD i [])) := by
  obtain ⟨h0, hc, c0, hc0⟩ := read_gals_ok_inv f s none gAll snap hAll hs
  have hrun := read_gals_run_none_eq f s snap c0 hs h0 hc hc0
  have hAll2 : gAll = assembleFrom c0.gschema 0 snap.cores := by
    unfold read_gals at hAll
    rw [hrun] at hAll
    dsimp only at hAll
    injection hAll with h2
    rw [← h2, galsLoop_none_eq c0.gschema snap.nGalaxies snap.cores 0 [] (by simp [hwf])]
    rw [List.nil_append]
    rfl
  have hsort : sortIndices S = S := sortIndices_eq_of_sorted S hS.le_of_lt
  have hrunS := read_gals_run_some_eq f s snap c0 S hs h0 hc hc0
  unfold read_gals
  rw [hrunS]
  dsimp only
  rw [hsort]
  have hfX : S.filter (fun i => decide (0 ≤ i)) = S := by
    rw [List.filter_eq_self]
    intro a _
    simp
  by_cases hS0 : S = []
  · subst hS0
    simp
  · rw [if_pos (by cases S with | nil => exact absurd rfl hS0 | cons a l => simp)]
    rw [galsLoop_some_eq c0.gschema S S.length snap.cores 0 [] hS
      (by simpa using hrange) (by rw [List.length_nil, hfX, Nat.zero_add])]
    rw [List.nil_append, hfX, hAll2]
    rfl

/-- Witness for C5: the Scenario A layout (core sizes [2, 0, 1]) with
the Scenario D-style selection [0, 2]: records come from core 0 and
core 2, at destination offsets 0 and 1, equal to the no-selection
records at global indices 0 and 2. -/
theorem read_gals_selection_correct_witness :
    (cxC5.snaps[0]? = some snapC5 ∧ snapC5.nGalaxies = totalGals snapC5.cores ∧
      ([0, 2] : List Nat).Sorted (· < ·) ∧
      (∀ i ∈ ([0, 2] : List Nat), i < totalGals snapC5.cores) ∧
      read_gals cxC5 0 none = Except.ok [mrec 10, mrec 11, mrec 12]) ∧
    read_gals cxC5 0 (some [0, 2]) =
      Except.ok (([0, 2] : List Nat).map (fun i => ([mrec 10, mrec 11, mrec 12] : List GalRec).getD i [])) :=
  ⟨⟨rfl, by decide, by decide, by decide, rfl⟩,
    read_gals_selection_correct cxC5 0 snapC5 [0, 2] [mrec 10, mrec 11, mrec 12]
      rfl (by decide) (by decide) (by decide) rfl⟩
